import Mathlib

/-!
Verification of the sse-backend semantic NL-to-SQL pipeline.

This file gives a shallow embedding, in Lean 4, of the core of the
`sse-backend` Rust repository and proves the specification claims about it:

* `src/core/inference.rs`  — `SemanticInferenceEngine::infer`
* `src/api/chat.rs`        — `chat_query` (semantic scan, T-Box check, SQL assembly)
* `src/infra/db_external.rs` — `PoolManager::get_or_create_pool`
* `src/infra/db_internal.rs` and `src/infra/utils.rs` — row-to-JSON marshallers
* `src/core/fst_engine.rs` — `FstEngine::build` / `find_match`

Modelling conventions:
* Rust `String`/`&str` is Lean `String`; Rust `str::len` (UTF-8 byte length)
  is `String.utf8ByteSize`; Rust `str::trim` is `strTrim` (whitespace dropped
  from both ends of the char list); Rust `str::to_lowercase` is `lowerStr`
  (per-char ASCII lowercasing; an ASCII-restricted model of Unicode
  lowercasing — CJK text is unaffected by either).
* `Uuid` is `Nat`.
* The meta-database tables consumed during request serving
  (`dimension_values`, `metric_dimension_rels`) are explicit lists; the SQL
  queries the code issues against them become list filters.
* The jieba tokenizer is external; the token sequence is a parameter of
  `infer`, and claims quantify over all token sequences.
* `DashMap` iteration is modelled as iteration over a list in an arbitrary
  fixed order; `HashSet` collection is modelled by `List.dedup`.
* Asynchrony is irrelevant to the claims: each request-path function is a
  pure function of its inputs.
-/

namespace SSE

/-! ## String helpers (models of the Rust `str` operations used) -/

/-- Model of per-character lowercasing: ASCII `A`–`Z` map to `a`–`z`, all
other characters are unchanged.  This is the restriction of Rust's
`char::to_lowercase` to ASCII. -/
def lowerChar (c : Char) : Char :=
  if 65 ≤ c.toNat ∧ c.toNat ≤ 90 then Char.ofNat (c.toNat + 32) else c

/-- Model of Rust `str::to_lowercase`. -/
def lowerStr (s : String) : String := ⟨s.data.map lowerChar⟩

/-- Model of Rust `str::trim`: drop whitespace from both ends. -/
def trimChars (cs : List Char) : List Char :=
  ((cs.dropWhile Char.isWhitespace).reverse.dropWhile Char.isWhitespace).reverse

/-- Model of Rust `str::trim` on `String`. -/
def strTrim (s : String) : String := ⟨trimChars s.data⟩

/-- `leadsWith pat cs` holds when `pat` is an initial segment of `cs`
(Boolean version, used to define substring containment). -/
def leadsWith : List Char → List Char → Bool
  | [], _ => true
  | _ :: _, [] => false
  | p :: ps, c :: cs => p == c && leadsWith ps cs

/-- `containsSeq pat cs` holds when `pat` occurs contiguously in `cs`. -/
def containsSeq (pat : List Char) : List Char → Bool
  | [] => leadsWith pat []
  | c :: cs => leadsWith pat (c :: cs) || containsSeq pat cs

/-- Model of Rust `str::contains` (substring containment). -/
def strContains (hay pat : String) : Bool := containsSeq pat.data hay.data

/-! ## Data model (`src/models/schema.rs`) -/

/-- UUIDs are abstract identifiers; we model them as naturals. -/
abbrev Uuid := Nat

/-- `BusinessConstraint` from `src/models/schema.rs`. -/
structure BusinessConstraint where
  column : String
  operator : String
  value : String
deriving DecidableEq, Repr

/-- `FullSemanticNode` from `src/models/schema.rs`.  The field the chat
handler calls `target_column` is this node's `sql_expression` (the
physical projection; `schema.rs` names the field `sql_expression`), and
`semantic_type` is the node tag the spec's data model declares and
`inference.rs` reads (`DATE` drives time binding). -/
structure FullSemanticNode where
  id : Uuid
  node_key : String
  label : String
  node_role : String
  semantic_type : String
  source_id : String
  target_table : String
  sql_expression : String
  default_constraints : List BusinessConstraint
  alias_names : List String
  default_agg : String
deriving DecidableEq, Repr

/-- One row of the `dimension_values` meta-table (the A-Box). -/
structure DimensionValue where
  dimension_node_id : Uuid
  value_label : String
  value_code : String
deriving DecidableEq, Repr

/-- The meta-database state the request path reads. -/
structure MetaDb where
  dimension_values : List DimensionValue
  metric_dimension_rels : List (Uuid × Uuid)
deriving Repr

/-- The in-memory node cache (`fst.node_cache`), a `DashMap` iterated in an
arbitrary fixed order, modelled as a list of node snapshots. -/
abbrev NodeCache := List FullSemanticNode

/-! ## Date pre-extraction (regex `(\d{4}-\d{2}-\d{2})`) -/

/-- Try to read `\d{4}-\d{2}-\d{2}` at the head of a char list. -/
def dateAt : List Char → Option String
  | a :: b :: c :: d :: s₁ :: e :: f :: s₂ :: g :: h :: _ =>
    if a.isDigit && b.isDigit && c.isDigit && d.isDigit && s₁ == '-'
        && e.isDigit && f.isDigit && s₂ == '-' && g.isDigit && h.isDigit then
      some ⟨[a, b, c, d, s₁, e, f, s₂, g, h]⟩
    else none
  | _ => none

/-- Leftmost match of the date regex, as the Rust `regex` crate finds it. -/
def firstDate : List Char → Option String
  | [] => none
  | c :: cs =>
    match dateAt (c :: cs) with
    | some d => some d
    | none => firstDate cs

/-- `captures` of the date regex over a query string (step 1 of `infer`,
also part A of the `chat_query` scan). -/
def capturedDate (q : String) : Option String := firstDate q.data

/-! ## `SemanticInferenceEngine::infer` (`src/core/inference.rs`) -/

/-- Label/alias match of a (lowercased) token against a node:
`n.label == w || n.alias_names.contains(&w)`. -/
def labelMatches (w : String) (n : FullSemanticNode) : Bool :=
  n.label == w || n.alias_names.contains w

/-- Accumulator of the scan loop in `infer`: matched metrics and the raw
candidate pool of `(dimension node, extracted value)` pairs. -/
structure ScanAcc where
  target_metrics : List FullSemanticNode
  raw_candidates : List (FullSemanticNode × String)
deriving Repr

/-- The context-adjacent value capture of `inference.rs` lines 74–79: if a
next token exists, trim it; keep it when its UTF-8 byte length exceeds 1
and it is neither `"是"` nor `"为"`. -/
def nextWordCapture (words : List String) (idx : Nat) : Option String :=
  match words[idx + 1]? with
  | none => none
  | some nw =>
    let t := strTrim nw
    if t.utf8ByteSize > 1 && t != "是" && t != "为" then some t else none

/-- One node of the FST-match inner loop (`inference.rs` lines 66–83) for
the token at `idx` whose lowercased form is `w`. -/
def scanNode (words : List String) (idx : Nat) (w : String) (acc : ScanAcc)
    (n : FullSemanticNode) : ScanAcc :=
  if labelMatches w n then
    if n.node_role == "METRIC" then
      { acc with target_metrics := acc.target_metrics ++ [n] }
    else if n.node_role == "DIMENSION" then
      match nextWordCapture words idx with
      | some v => { acc with raw_candidates := acc.raw_candidates ++ [(n, v)] }
      | none => acc
    else acc
  else acc

/-- The A-Box query of `infer` (lines 86–91): rows of `dimension_values`
whose `value_label` equals the (original, un-lowercased) token. -/
def aboxRows (db : MetaDb) (word : String) : List (Uuid × String) :=
  (db.dimension_values.filter (fun r => r.value_label == word)).map
    (fun r => (r.dimension_node_id, r.value_code))

/-- The A-Box part of the scan (lines 93–100): each matching row whose
dimension id resolves in the node cache contributes a raw candidate. -/
def aboxStep (cache : NodeCache) (acc : ScanAcc) (p : Uuid × String) : ScanAcc :=
  match cache.find? (fun n => n.id == p.1) with
  | some dn => { acc with raw_candidates := acc.raw_candidates ++ [(dn, p.2)] }
  | none => acc

/-- Scan of one token (lines 62–101): lowercase it, run the FST match over
the cache, then the A-Box match. -/
def scanWord (db : MetaDb) (cache : NodeCache) (words : List String)
    (idx : Nat) (word : String) (acc : ScanAcc) : ScanAcc :=
  let w := lowerStr word
  let acc := cache.foldl (scanNode words idx w) acc
  (aboxRows db word).foldl (aboxStep cache) acc

/-- The scan loop `for (idx, word) in words.iter().enumerate()`: process
the remaining tokens `ws`, the next one having index `idx` in the full
sequence `words`. -/
def scanFrom (db : MetaDb) (cache : NodeCache) (words : List String) :
    Nat → List String → ScanAcc → ScanAcc
  | _, [], acc => acc
  | idx, w :: ws, acc =>
    scanFrom db cache words (idx + 1) ws (scanWord db cache words idx w acc)

/-- The full scan loop over the enumerated token sequence. -/
def scanAll (db : MetaDb) (cache : NodeCache) (words : List String) : ScanAcc :=
  scanFrom db cache words 0 words ⟨[], []⟩

/-- The supported-dimension set of a metric: `SELECT dimension_node_id FROM
metric_dimension_rels WHERE metric_node_id = $1`, collected into a
`HashSet` (modelled by `dedup`; iteration order is arbitrary but fixed). -/
def supportedDimIds (db : MetaDb) (mid : Uuid) : List Uuid :=
  (((db.metric_dimension_rels.filter (fun r => r.1 == mid)).map Prod.snd)).dedup

/-- The de-duplication key of a filter: `(dim.id, value)`.  `chat.rs`
serializes it as the string `"{id}:{val}"`, which is injective because a
UUID's text form contains no `:`; we model the key as the pair itself. -/
def keyOf (f : FullSemanticNode × String) : Uuid × String := (f.1.id, f.2)

/-- Push a candidate unless its key was already seen (the body of the
de-duplication loops in both `inference.rs` and `chat.rs`).  The state is
`(filters so far, seen keys)`. -/
def dedupPush (st : List (FullSemanticNode × String) × List (Uuid × String))
    (c : FullSemanticNode × String) :
    List (FullSemanticNode × String) × List (Uuid × String) :=
  if st.2.contains (keyOf c) then st else (st.1 ++ [c], st.2 ++ [keyOf c])

/-- Step A of `infer`'s validation loop (lines 127–136): keep a candidate
iff its dimension id is supported, de-duplicating by key. -/
def filterStep (sup : List Uuid)
    (st : List (FullSemanticNode × String) × List (Uuid × String))
    (c : FullSemanticNode × String) :
    List (FullSemanticNode × String) × List (Uuid × String) :=
  if sup.contains c.1.id then dedupPush st c else st

/-- Step B of `infer` (lines 140–152): for each supported dimension id,
if the cache resolves it to a `DATE`-typed node whose id is not yet bound,
bind the captured date to it. -/
def timeStep (cache : NodeCache) (d : String)
    (st : List (FullSemanticNode × String) × List (Uuid × String))
    (dimId : Uuid) :
    List (FullSemanticNode × String) × List (Uuid × String) :=
  match cache.find? (fun n => n.id == dimId) with
  | some n =>
    if n.semantic_type == "DATE" && !(st.2.any (fun p => p.1 == n.id)) then
      (st.1 ++ [(n, d)], st.2 ++ [(n.id, d)])
    else st
  | none => st

/-- The logical plan produced by inference. -/
structure InferenceResult where
  metric : FullSemanticNode
  filters : List (FullSemanticNode × String)
deriving Repr

/-- The typed inference failure.  In the source this is the anyhow error
`"未识别到指标锚点，请明确提问目标（如：收益、应还）"`; the spec names it
`NoMetricAnchor`. -/
inductive InferError where
  | noMetricAnchor
deriving DecidableEq, Repr

/-- Steps 5–8 of `infer` after the anchor is fixed: T-Box validation with
de-duplication over the raw candidates, then the type-directed time
binding of the captured date. -/
def validateAndBind (db : MetaDb) (cache : NodeCache)
    (captured : Option String) (metric : FullSemanticNode)
    (raw : List (FullSemanticNode × String)) :
    List (FullSemanticNode × String) :=
  let sup := supportedDimIds db metric.id
  let st := raw.foldl (filterStep sup) ([], [])
  let st :=
    match captured with
    | some d => sup.foldl (timeStep cache d) st
    | none => st
  st.1

/-- `SemanticInferenceEngine::infer`.  `query` is the raw user query (read
only by the date regex); `words` is the jieba token sequence of the query
(the tokenizer is external, so the tokens are a parameter). -/
def infer (db : MetaDb) (cache : NodeCache) (query : String)
    (words : List String) : Except InferError InferenceResult :=
  let acc := scanAll db cache words
  match acc.target_metrics with
  | [] => .error .noMetricAnchor
  | metric :: _ =>
    .ok ⟨metric,
      validateAndBind db cache (capturedDate query) metric acc.raw_candidates⟩

/-! ## `chat_query` (`src/api/chat.rs`)

The handler trims `payload.query` on its first line; `chat_query` below
takes that trimmed text as its input `q`.  Execution against the external
source (step 5 of the handler) is outside the scope of the claims; the
result type below records the handler's outcome up to and including SQL
assembly, so a `fail`/`ambiguous` outcome carries no SQL by construction. -/

/-- The metric-recognition test of `chat.rs` lines 34–36: the (trimmed)
query contains the label or any alias as a substring. -/
def metricMatches (q : String) (n : FullSemanticNode) : Bool :=
  n.node_role == "METRIC"
    && (strContains q n.label || n.alias_names.any (fun a => strContains q a))

/-- The time-dimension heuristic of `chat.rs` lines 43–45. -/
def isTimeDim (n : FullSemanticNode) : Bool :=
  strContains (lowerStr n.node_key) "date"
    || strContains n.label "时间" || strContains n.label "日期"

/-- One node of the recognition loop (`chat.rs` lines 30–67): collect the
node as a metric match, and/or contribute raw filters from the time
heuristic and from A-Box value labels contained in the query. -/
def chatScanNode (db : MetaDb) (q : String) (captured : Option String)
    (acc : List FullSemanticNode × List (FullSemanticNode × String))
    (n : FullSemanticNode) :
    List FullSemanticNode × List (FullSemanticNode × String) :=
  let ms := if metricMatches q n then acc.1 ++ [n] else acc.1
  let fs :=
    if n.node_role == "DIMENSION" then
      let fs :=
        match captured with
        | some d => if isTimeDim n then acc.2 ++ [(n, d)] else acc.2
        | none => acc.2
      let instances := db.dimension_values.filter
        (fun r => r.dimension_node_id == n.id)
      instances.foldl
        (fun fs r =>
          if strContains q r.value_label then fs ++ [(n, r.value_code)] else fs)
        fs
    else acc.2
  (ms, fs)

/-- The full recognition loop: `(target_metrics, raw_filters)`. -/
def chatScan (db : MetaDb) (cache : NodeCache) (q : String) :
    List FullSemanticNode × List (FullSemanticNode × String) :=
  cache.foldl (chatScanNode db q (capturedDate q)) ([], [])

/-- The de-duplication of `chat.rs` lines 69–80 (key `(dim.id, value)`,
first occurrence kept). -/
def detectedFilters (raw : List (FullSemanticNode × String)) :
    List (FullSemanticNode × String) :=
  (raw.foldl dedupPush ([], [])).1

/-- The T-Box relatedness probe of `chat.rs` lines 101–109: does a
`metric_dimension_rels` row relate the metric to the dimension? -/
def isRelated (db : MetaDb) (mid did : Uuid) : Bool :=
  db.metric_dimension_rels.any (fun r => r.1 == mid && r.2 == did)

/-- Aggregation selection (`chat.rs` lines 130–136). -/
def aggOf (q : String) (m : FullSemanticNode) : String :=
  if strContains q "平均" then "AVG"
  else if m.default_agg == "NONE" then "NONE"
  else m.default_agg

/-- A dimension's SELECT item: `{col} as "{label}"`. -/
def dimSelectItem (n : FullSemanticNode) : String :=
  n.sql_expression ++ " as \"" ++ n.label ++ "\""

/-- The metric's SELECT item (`chat.rs` lines 138–142). -/
def metricSqlItem (agg : String) (m : FullSemanticNode) : String :=
  if agg == "NONE" then m.sql_expression ++ " as \"" ++ m.label ++ "\""
  else agg ++ "(" ++ m.sql_expression ++ ") as \"" ++ m.label ++ "\""

/-- One rendered constraint predicate: `{column} {operator} '{value}'`. -/
def constraintPred (c : BusinessConstraint) : String :=
  c.column ++ " " ++ c.operator ++ " '" ++ c.value ++ "'"

/-- The WHERE conjunct list (`chat.rs` lines 146–154): the `1=1` sentinel,
one equality per bound filter, then the metric's default constraints. -/
def whereConds (filters : List (FullSemanticNode × String))
    (m : FullSemanticNode) : List String :=
  ["1=1"]
    ++ filters.map (fun f => f.1.sql_expression ++ " = '" ++ f.2 ++ "'")
    ++ m.default_constraints.map constraintPred

/-- The SELECT…FROM…WHERE part of the generated SQL (`chat.rs` lines
120–158), before the optional GROUP BY suffix. -/
def baseSql (agg : String) (m : FullSemanticNode)
    (filters : List (FullSemanticNode × String)) : String :=
  "SELECT "
    ++ String.intercalate ", "
        (filters.map (fun f => dimSelectItem f.1) ++ [metricSqlItem agg m])
    ++ " FROM " ++ m.target_table
    ++ " WHERE " ++ String.intercalate " AND " (whereConds filters m)

/-- The full generated SQL (`chat.rs` lines 158–162): the base statement,
plus a GROUP BY over the filters' columns when aggregating with at least
one bound dimension. -/
def buildSql (agg : String) (m : FullSemanticNode)
    (filters : List (FullSemanticNode × String)) : String :=
  let groupByItems := filters.map (fun f => f.1.sql_expression)
  if agg != "NONE" && !groupByItems.isEmpty then
    baseSql agg m filters ++ " GROUP BY " ++ String.intercalate ", " groupByItems
  else baseSql agg m filters

/-- The handler outcome, up to SQL assembly. -/
inductive ChatResult where
  | fail
  | ambiguous (candidates : List String)
  | tboxWarn (metricLabel dimLabel : String)
  | planned (sql : String) (agg : String) (metric : FullSemanticNode)
      (filters : List (FullSemanticNode × String))
deriving DecidableEq, Repr

/-- `chat_query`, from the recognition scan to SQL assembly.  `q` is the
trimmed `payload.query`. -/
def chat_query (db : MetaDb) (cache : NodeCache) (q : String) : ChatResult :=
  let scanned := chatScan db cache q
  let detected := detectedFilters scanned.2
  match scanned.1 with
  | [] => .fail
  | metric :: rest =>
    if rest.isEmpty then
      match detected.find? (fun f => !(isRelated db metric.id f.1.id)) with
      | some f => .tboxWarn metric.label f.1.label
      | none =>
        let agg := aggOf q metric
        .planned (buildSql agg metric detected) agg metric detected
    else .ambiguous ((metric :: rest).map (fun n => n.label))

/-! ## `PoolManager` (`src/infra/db_external.rs`) -/

/-- A registered data source (`src/models/schema.rs`). -/
structure DataSource where
  id : String
  db_type : String
  connection_url : String
  display_name : Option String
deriving DecidableEq, Repr

/-- A dialect connection pool handle.  The payload records the options the
pool was created with (`max_connections`, the url); the live connections
themselves are not modelled. -/
structure RawPool where
  max_connections : Nat
  url : String
deriving DecidableEq, Repr

/-- `DynamicPool`, the two-variant dialect sum. -/
inductive DynamicPool where
  | postgres (p : RawPool)
  | mysql (p : RawPool)
deriving DecidableEq, Repr

/-- The keyed pool map (`DashMap<String, Arc<DynamicPool>>`), modelled as an
association list keyed by `source.id`. -/
structure PoolManager where
  pools : List (String × DynamicPool)
deriving DecidableEq, Repr

/-- The connectivity environment: whether a connect attempt against a given
url succeeds, per dialect.  This stands for the network outcome of
`PgPoolOptions::connect` / `MySqlPoolOptions::connect`. -/
structure ConnectEnv where
  pgOk : String → Bool
  myOk : String → Bool

/-- The typed failures of `get_or_create_pool`: a connect error propagated
by `?`, or the `"Unsupported DB type"` error. -/
inductive PoolError where
  | connectFailed
  | unsupportedDbType
deriving DecidableEq, Repr

/-- `PgPoolOptions::new().max_connections(maxConn).connect(url)`. -/
def pgConnect (env : ConnectEnv) (maxConn : Nat) (url : String) :
    Except PoolError RawPool :=
  if env.pgOk url then .ok ⟨maxConn, url⟩ else .error .connectFailed

/-- `MySqlPoolOptions::new().max_connections(maxConn).connect(url)`. -/
def myConnect (env : ConnectEnv) (maxConn : Nat) (url : String) :
    Except PoolError RawPool :=
  if env.myOk url then .ok ⟨maxConn, url⟩ else .error .connectFailed

/-- `PoolManager::get_or_create_pool` (`db_external.rs` lines 56–73).  The
returned pair is `(call outcome, pool map afterwards)`: a cached hit
returns the cached handle, a miss creates a pool with `max_connections(5)`
and inserts it keyed by `source.id`, and on failure the error propagates
with the map unchanged (nothing is cached). -/
def get_or_create_pool (env : ConnectEnv) (pm : PoolManager)
    (source : DataSource) : Except PoolError DynamicPool × PoolManager :=
  match pm.pools.lookup source.id with
  | some pool => (.ok pool, pm)
  | none =>
    let dt := lowerStr source.db_type
    if dt == "postgres" || dt == "postgresql" then
      match pgConnect env 5 source.connection_url with
      | .ok p =>
        let newPool := DynamicPool.postgres p
        (.ok newPool, ⟨(source.id, newPool) :: pm.pools⟩)
      | .error e => (.error e, pm)
    else if dt == "mysql" then
      match myConnect env 5 source.connection_url with
      | .ok p =>
        let newPool := DynamicPool.mysql p
        (.ok newPool, ⟨(source.id, newPool) :: pm.pools⟩)
      | .error e => (.error e, pm)
    else (.error .unsupportedDbType, pm)

/-! ## Row marshallers (`src/infra/db_internal.rs`, `src/infra/utils.rs`) -/

/-- The uniform JSON values a marshalled row's fields take.  A JSON number
holds either an exact integer (`numI`) or an `f64` (`numF`, whose value we
do not model — float arithmetic is outside the embedding; only the
constructor matters to the claims).  `passthrough` is a JSON/JSONB column
document forwarded verbatim, kept opaque as its rendered text.  A
marshalled row itself is the field list of the produced JSON object. -/
inductive Json where
  | null
  | numI (i : Int)
  | numF
  | str (s : String)
  | bool (b : Bool)
  | passthrough (doc : String)
deriving DecidableEq, Repr

/-- A decoded SQL cell.  `decimal` carries the exact digit string the
`rust_decimal::Decimal` renders via `to_string` (lossless); `float` values
are not modelled. -/
inductive SqlCell where
  | null
  | int (i : Int)
  | big (i : Int)
  | float
  | decimal (digits : String)
  | text (s : String)
  | boolean (b : Bool)
  | date (iso : String)
  | datetime (iso : String)
  | jsonVal (doc : String)
deriving DecidableEq, Repr

/-- `row.try_get::<Option<i32>>` and friends: the decoded payload when the
cell holds that type, `none` both for SQL NULL and on a decode error (the
source applies `.unwrap_or(None)` everywhere). -/
def getInt : SqlCell → Option Int
  | .int i => some i
  | _ => none

def getBig : SqlCell → Option Int
  | .big i => some i
  | _ => none

def getFloat : SqlCell → Option Unit
  | .float => some ()
  | _ => none

def getDecimal : SqlCell → Option String
  | .decimal d => some d
  | _ => none

def getText : SqlCell → Option String
  | .text s => some s
  | _ => none

def getBool : SqlCell → Option Bool
  | .boolean b => some b
  | _ => none

def getDate : SqlCell → Option String
  | .date s => some s
  | _ => none

def getDatetime : SqlCell → Option String
  | .datetime s => some s
  | _ => none

def getJson : SqlCell → Option String
  | .jsonVal doc => some doc
  | _ => none

/-- A column of a dialect-native row: name, dialect type name, decoded cell. -/
structure RowColumn where
  name : String
  type_name : String
  cell : SqlCell
deriving DecidableEq, Repr

/-- `Option` to JSON as `json!` does it: `none` becomes JSON null. -/
def optJson (f : α → Json) : Option α → Json
  | some a => f a
  | none => .null

namespace DbInternal

/-- The per-cell dispatch of `db_internal.rs::pg_row_to_json` (lines
23–35).  `NUMERIC` renders the decimal via `to_string` into a JSON string. -/
def pgCellJson (ty : String) (cell : SqlCell) : Json :=
  match ty with
  | "INT2" | "INT4" => optJson Json.numI (getInt cell)
  | "INT8" => optJson Json.numI (getBig cell)
  | "FLOAT4" | "FLOAT8" => optJson (fun _ => Json.numF) (getFloat cell)
  | "NUMERIC" => optJson Json.str (getDecimal cell)
  | "TEXT" | "VARCHAR" | "BPCHAR" => optJson Json.str (getText cell)
  | "BOOL" => optJson Json.bool (getBool cell)
  | "DATE" => optJson Json.str (getDate cell)
  | _ => optJson Json.str (getText cell)

/-- `db_internal.rs::pg_row_to_json`: one JSON object field per column. -/
def pg_row_to_json (row : List RowColumn) : List (String × Json) :=
  row.map (fun col => (col.name, pgCellJson col.type_name col.cell))

/-- The per-cell dispatch of `db_internal.rs::mysql_row_to_json` (lines
49–82).  `DECIMAL`/`NEWDECIMAL` render via `to_string` into a JSON string. -/
def mysqlCellJson (ty : String) (cell : SqlCell) : Json :=
  match ty with
  | "TINYINT" | "SMALLINT" | "INT" | "MEDIUMINT" => optJson Json.numI (getInt cell)
  | "BIGINT" => optJson Json.numI (getBig cell)
  | "FLOAT" | "DOUBLE" => optJson (fun _ => Json.numF) (getFloat cell)
  | "DECIMAL" | "NEWDECIMAL" => optJson Json.str (getDecimal cell)
  | "CHAR" | "VARCHAR" | "TEXT" | "LONGTEXT" => optJson Json.str (getText cell)
  | "DATE" => optJson Json.str (getDate cell)
  | "DATETIME" | "TIMESTAMP" => optJson Json.str (getDatetime cell)
  | _ => optJson Json.str (getText cell)

/-- `db_internal.rs::mysql_row_to_json`. -/
def mysql_row_to_json (row : List RowColumn) : List (String × Json) :=
  row.map (fun col => (col.name, mysqlCellJson col.type_name col.cell))

end DbInternal

namespace Utils

/-- The per-cell dispatch of `utils.rs::pg_row_to_json` (lines 14–57).
Unlike the `db_internal.rs` variant, `NUMERIC` is converted through
`Decimal::to_f64().unwrap_or(0.0)` into a JSON number. -/
def pgCellJson (ty : String) (cell : SqlCell) : Json :=
  match ty with
  | "INT2" | "INT4" => optJson Json.numI (getInt cell)
  | "INT8" => optJson Json.numI (getBig cell)
  | "FLOAT4" | "FLOAT8" => optJson (fun _ => Json.numF) (getFloat cell)
  | "NUMERIC" => optJson (fun _ => Json.numF) (getDecimal cell)
  | "TEXT" | "VARCHAR" | "BPCHAR" | "NAME" => optJson Json.str (getText cell)
  | "BOOL" => optJson Json.bool (getBool cell)
  | "DATE" => optJson Json.str (getDate cell)
  | "TIMESTAMP" | "TIMESTAMPTZ" => optJson Json.str (getDatetime cell)
  | "JSON" | "JSONB" => (getJson cell).map Json.passthrough |>.getD .null
  | _ => optJson Json.str (getText cell)

/-- `utils.rs::pg_row_to_json`. -/
def pg_row_to_json (row : List RowColumn) : List (String × Json) :=
  row.map (fun col => (col.name, pgCellJson col.type_name col.cell))

end Utils

/-! ## `FstEngine` (`src/core/fst_engine.rs`) -/

/-- `SemanticMapping` as `fst_engine.rs` consumes it: the display label and
its aliases (the only fields `build` reads; the cached snapshot is the
whole mapping, which the extra `payload` field stands for). -/
structure SemanticMapping where
  entity_label : String
  alias_names : List String
  payload : String
deriving DecidableEq, Repr

/-- `BTreeMap::insert`: replace the value at an existing key, else append. -/
def btInsert (m : List (String × Nat)) (k : String) (v : Nat) :
    List (String × Nat) :=
  match m with
  | [] => [(k, v)]
  | (k', v') :: rest =>
    if k' == k then (k, v) :: rest else (k', v') :: btInsert rest k v

/-- The immutable engine: the finalized key → id dictionary and the
id → mapping cache. -/
structure FstEngine where
  index : List (String × Nat)
  mapping_cache : List (Nat × SemanticMapping)
deriving Repr

/-- `FstEngine::build` (`fst_engine.rs` lines 14–39): allocate ids
monotonically, insert one lowercased key per label and per alias (later
mappings overwrite duplicate keys, as `BTreeMap::insert` does), and cache
each mapping under its id. -/
def FstEngine.build (mappings : List SemanticMapping) : FstEngine :=
  let step := fun (data : List (String × Nat)) (p : Nat × SemanticMapping) =>
    let data := btInsert data (lowerStr p.2.entity_label) p.1
    p.2.alias_names.foldl (fun d a => btInsert d (lowerStr a) p.1) data
  ⟨mappings.enum.foldl step [], mappings.enum⟩

/-- `FstEngine::find_match` (`fst_engine.rs` lines 42–45): look the
lowercased query up in the dictionary, then resolve the id in the cache. -/
def FstEngine.find_match (e : FstEngine) (query : String) :
    Option SemanticMapping :=
  match e.index.lookup (lowerStr query) with
  | some id => e.mapping_cache.lookup id
  | none => none

/-! ## Specification-side definitions

These definitions follow the wording of the specification (not the code);
the claims compare the code's behaviour against them. -/

/-- Collapse a candidate list by the key `(dim.id, value)`, keeping the
first occurrence of each key; `seen` holds the keys already taken.  This is
the spec's step 7 ("preserve first-seen order"). -/
def dedupFirst (seen : List (Uuid × String)) :
    List (FullSemanticNode × String) → List (FullSemanticNode × String)
  | [] => []
  | c :: cs =>
    if seen.contains (keyOf c) then dedupFirst seen cs
    else c :: dedupFirst (seen ++ [keyOf c]) cs

/-- The WHERE conjunct list the claim describes: the sentinel, the filter
equalities, the metric's default constraints, then each bound filter
dimension's default constraints. -/
def claimWhereConds (filters : List (FullSemanticNode × String))
    (m : FullSemanticNode) : List String :=
  ["1=1"]
    ++ filters.map (fun f => f.1.sql_expression ++ " = '" ++ f.2 ++ "'")
    ++ m.default_constraints.map constraintPred
    ++ (filters.map (fun f => f.1.default_constraints.map constraintPred)).flatten

/-- The full SQL statement the claim describes, with `claimWhereConds` as
its WHERE clause. -/
def claimBuildSql (agg : String) (m : FullSemanticNode)
    (filters : List (FullSemanticNode × String)) : String :=
  "SELECT "
    ++ String.intercalate ", "
        (filters.map (fun f => dimSelectItem f.1) ++ [metricSqlItem agg m])
    ++ " FROM " ++ m.target_table
    ++ " WHERE " ++ String.intercalate " AND " (claimWhereConds filters m)
    ++ (if agg = "NONE" ∨ filters = [] then ""
        else " GROUP BY " ++
          String.intercalate ", " (filters.map (fun f => f.1.sql_expression)))

/-! ## Helper lemmas -/

theorem contains_iff_mem {α : Type} [BEq α] [LawfulBEq α] {l : List α}
    {a : α} : l.contains a = true ↔ a ∈ l := by
  simp [List.contains, List.elem_iff]

/-- The metric matches a lowercased token contributes to `target_metrics`. -/
def metricsMatched (cache : NodeCache) (w : String) : List FullSemanticNode :=
  cache.filter (fun n => labelMatches w n && (n.node_role == "METRIC"))

theorem scanNode_target_metrics (words : List String) (idx : Nat) (w : String)
    (acc : ScanAcc) (n : FullSemanticNode) :
    (scanNode words idx w acc n).target_metrics =
      acc.target_metrics
        ++ (if labelMatches w n && (n.node_role == "METRIC") then [n] else []) := by
  unfold scanNode
  cases h1 : labelMatches w n
  · simp [h1]
  · cases h2 : n.node_role == "METRIC"
    · simp only [h1, h2, Bool.true_and, if_false, Bool.false_eq_true, if_true,
        List.append_nil]
      cases h3 : n.node_role == "DIMENSION"
      · simp [h3]
      · cases h4 : nextWordCapture words idx <;> simp [h3, h4]
    · simp [h1, h2]

theorem scanNode_foldl_target_metrics (words : List String) (idx : Nat)
    (w : String) (cache : NodeCache) (acc : ScanAcc) :
    (cache.foldl (scanNode words idx w) acc).target_metrics =
      acc.target_metrics ++ metricsMatched cache w := by
  induction cache generalizing acc with
  | nil => simp [metricsMatched]
  | cons n rest ih =>
    simp only [List.foldl_cons, ih, scanNode_target_metrics, metricsMatched,
      List.filter_cons]
    cases h : labelMatches w n && (n.node_role == "METRIC") <;>
      simp [h, metricsMatched, List.append_assoc]

theorem aboxStep_target_metrics (cache : NodeCache) (acc : ScanAcc)
    (p : Uuid × String) :
    (aboxStep cache acc p).target_metrics = acc.target_metrics := by
  unfold aboxStep
  cases cache.find? (fun n => n.id == p.1) <;> simp

theorem aboxStep_foldl_target_metrics (cache : NodeCache) (acc : ScanAcc)
    (ps : List (Uuid × String)) :
    (ps.foldl (aboxStep cache) acc).target_metrics = acc.target_metrics := by
  induction ps generalizing acc with
  | nil => rfl
  | cons p rest ih => simp [ih, aboxStep_target_metrics]

theorem scanWord_target_metrics (db : MetaDb) (cache : NodeCache)
    (words : List String) (idx : Nat) (word : String) (acc : ScanAcc) :
    (scanWord db cache words idx word acc).target_metrics =
      acc.target_metrics ++ metricsMatched cache (lowerStr word) := by
  unfold scanWord
  simp [aboxStep_foldl_target_metrics, scanNode_foldl_target_metrics]

theorem scanFrom_target_metrics_nil (db : MetaDb) (cache : NodeCache)
    (words : List String) (idx : Nat) (ws : List String) (acc : ScanAcc)
    (h : ∀ w ∈ ws, metricsMatched cache (lowerStr w) = []) :
    (scanFrom db cache words idx ws acc).target_metrics =
      acc.target_metrics := by
  induction ws generalizing idx acc with
  | nil => rfl
  | cons w rest ih =>
    simp only [scanFrom]
    rw [ih _ _ (fun x hx => h x (List.mem_cons_of_mem _ hx)),
      scanWord_target_metrics, h w (List.mem_cons_self w rest), List.append_nil]

theorem chatScanNode_fst (db : MetaDb) (q : String) (cap : Option String)
    (acc : List FullSemanticNode × List (FullSemanticNode × String))
    (n : FullSemanticNode) :
    (chatScanNode db q cap acc n).1 =
      acc.1 ++ (if metricMatches q n then [n] else []) := by
  unfold chatScanNode
  cases h : metricMatches q n <;> simp [h]

theorem chatScanNode_foldl_fst (db : MetaDb) (q : String) (cap : Option String)
    (cache : NodeCache)
    (acc : List FullSemanticNode × List (FullSemanticNode × String)) :
    (cache.foldl (chatScanNode db q cap) acc).1 =
      acc.1 ++ cache.filter (metricMatches q) := by
  induction cache generalizing acc with
  | nil => simp
  | cons n rest ih =>
    simp only [List.foldl_cons, ih, List.filter_cons]
    cases h : metricMatches q n
    · simp only [chatScanNode_fst, h, Bool.false_eq_true, if_false,
        List.append_nil]
    · have : (chatScanNode db q cap acc n).1 = acc.1 ++ [n] := by
        simp [chatScanNode_fst, h]
      simp [this, List.append_assoc]

theorem chatScan_fst (db : MetaDb) (cache : NodeCache) (q : String) :
    (chatScan db cache q).1 = cache.filter (metricMatches q) := by
  unfold chatScan
  simp [chatScanNode_foldl_fst]

theorem foldl_dedupPush (cs : List (FullSemanticNode × String))
    (fs : List (FullSemanticNode × String)) (seen : List (Uuid × String)) :
    cs.foldl dedupPush (fs, seen) =
      (fs ++ dedupFirst seen cs,
        seen ++ (dedupFirst seen cs).map keyOf) := by
  induction cs generalizing fs seen with
  | nil => simp [dedupFirst]
  | cons c rest ih =>
    simp only [List.foldl_cons, dedupPush, dedupFirst]
    cases h : seen.contains (keyOf c)
    · simp only [h, Bool.false_eq_true, if_false, ih, List.map_cons]
      simp [List.append_assoc]
    · simp [h, ih]

theorem foldl_filterStep (sup : List Uuid)
    (cs : List (FullSemanticNode × String))
    (st : List (FullSemanticNode × String) × List (Uuid × String)) :
    cs.foldl (filterStep sup) st =
      (cs.filter (fun c => sup.contains c.1.id)).foldl dedupPush st := by
  induction cs generalizing st with
  | nil => rfl
  | cons c rest ih =>
    simp only [List.foldl_cons, filterStep, List.filter_cons]
    cases h : sup.contains c.1.id <;> simp [h, ih]

/-- The well-formedness invariant of the de-duplication state: the kept
filters have pairwise-distinct keys, and every kept key is in the seen
set. -/
def GoodSt (st : List (FullSemanticNode × String) × List (Uuid × String)) :
    Prop :=
  (st.1.map keyOf).Nodup ∧ ∀ k ∈ st.1.map keyOf, st.2.contains k = true

theorem goodSt_nil : GoodSt ([], []) := by simp [GoodSt]

theorem goodSt_dedupPush {st : List (FullSemanticNode × String) × List (Uuid × String)}
    (h : GoodSt st) (c : FullSemanticNode × String) : GoodSt (dedupPush st c) := by
  unfold dedupPush
  cases hc : st.2.contains (keyOf c)
  · simp only [hc, Bool.false_eq_true, if_false]
    obtain ⟨hnd, hsub⟩ := h
    constructor
    · simp only [List.map_append, List.map_cons, List.map_nil,
        List.nodup_append]
      refine ⟨hnd, by simp, ?_⟩
      intro k hk hmem
      have : st.2.contains k = true := hsub k hk
      simp only [List.mem_cons, List.not_mem_nil, or_false] at hmem
      rw [hmem] at this
      rw [hc] at this
      exact Bool.noConfusion this
    · intro k hk
      simp only [List.map_append, List.map_cons, List.map_nil,
        List.mem_append, List.mem_cons, List.not_mem_nil, or_false] at hk
      rcases hk with hk | hk
      · have := hsub k hk
        rw [contains_iff_mem] at this ⊢
        simp [this]
      · rw [contains_iff_mem]
        simp [hk]
  · simpa [hc] using h

theorem goodSt_filterStep {st : List (FullSemanticNode × String) × List (Uuid × String)}
    (sup : List Uuid) (h : GoodSt st) (c : FullSemanticNode × String) :
    GoodSt (filterStep sup st c) := by
  unfold filterStep
  cases hc : sup.contains c.1.id
  · simpa using h
  · simpa using goodSt_dedupPush h c

theorem goodSt_timeStep {st : List (FullSemanticNode × String) × List (Uuid × String)}
    (cache : NodeCache) (d : String) (h : GoodSt st) (dimId : Uuid) :
    GoodSt (timeStep cache d st dimId) := by
  unfold timeStep
  cases hf : cache.find? (fun n => n.id == dimId)
  · simpa using h
  case some n =>
    cases hcond : n.semantic_type == "DATE" && !(st.2.any (fun p => p.1 == n.id))
    · simpa [hcond] using h
    · simp only [hcond, if_true]
      obtain ⟨hnd, hsub⟩ := h
      simp only [Bool.and_eq_true, Bool.not_eq_true'] at hcond
      have hnotin : (n.id, d) ∉ st.1.map keyOf := by
        intro hmem
        have hcont := hsub _ hmem
        rw [contains_iff_mem] at hcont
        have : st.2.any (fun p => p.1 == n.id) = true := by
          rw [List.any_eq_true]
          exact ⟨(n.id, d), hcont, by simp⟩
        simp [hcond.2] at this
      constructor
      · simp only [List.map_append, List.map_cons, List.map_nil,
          List.nodup_append]
        refine ⟨hnd, by simp, ?_⟩
        intro k hk hmem
        simp only [List.mem_cons, List.not_mem_nil, or_false] at hmem
        subst hmem
        exact hnotin (by simpa [keyOf] using hk)
      · intro k hk
        simp only [List.map_append, List.map_cons, List.map_nil,
          List.mem_append, List.mem_cons, List.not_mem_nil, or_false] at hk
        rcases hk with hk | hk
        · have := hsub k hk
          rw [contains_iff_mem] at this ⊢
          simp [this]
        · rw [contains_iff_mem]
          simp [hk, keyOf]

theorem goodSt_foldl {β : Type}
    {f : List (FullSemanticNode × String) × List (Uuid × String) → β →
      List (FullSemanticNode × String) × List (Uuid × String)}
    (hf : ∀ st c, GoodSt st → GoodSt (f st c))
    {st : List (FullSemanticNode × String) × List (Uuid × String)}
    (h : GoodSt st) (l : List β) : GoodSt (l.foldl f st) := by
  induction l generalizing st with
  | nil => exact h
  | cons c rest ih => exact ih (hf st c h)

/-- The time-binding fold only appends to the filters list. -/
theorem timeStep_foldl_extends (cache : NodeCache) (d : String)
    (ds : List Uuid)
    (st : List (FullSemanticNode × String) × List (Uuid × String)) :
    ∃ extra, (ds.foldl (timeStep cache d) st).1 = st.1 ++ extra := by
  induction ds generalizing st with
  | nil => exact ⟨[], by simp⟩
  | cons x rest ih =>
    simp only [List.foldl_cons]
    obtain ⟨e₂, he₂⟩ := ih (timeStep cache d st x)
    unfold timeStep at he₂ ⊢
    cases hf : cache.find? (fun n => n.id == x)
    · simp only [hf] at he₂
      exact ⟨e₂, by simp [hf, he₂]⟩
    case some n =>
      cases hcond : n.semantic_type == "DATE" && !(st.2.any (fun p => p.1 == n.id))
      · simp only [hf, hcond, Bool.false_eq_true, if_false] at he₂
        exact ⟨e₂, by simp [hf, hcond, he₂]⟩
      · simp only [hf, hcond, if_true] at he₂
        exact ⟨(n, d) :: e₂, by simp [hf, hcond, he₂]⟩

/-- Everything the time-binding fold appends has its dimension id among the
ids folded over, provided those ids are in `sup` and the initial state is
within `sup`. -/
theorem timeStep_foldl_sup (cache : NodeCache) (d : String) (sup : List Uuid)
    (ds : List Uuid) (hds : ∀ x ∈ ds, x ∈ sup)
    (st : List (FullSemanticNode × String) × List (Uuid × String))
    (hst : ∀ f ∈ st.1, f.1.id ∈ sup) :
    ∀ f ∈ (ds.foldl (timeStep cache d) st).1, f.1.id ∈ sup := by
  induction ds generalizing st with
  | nil => exact hst
  | cons x rest ih =>
    simp only [List.foldl_cons]
    refine ih (fun y hy => hds y (List.mem_cons_of_mem _ hy)) _ ?_
    unfold timeStep
    cases hf : cache.find? (fun n => n.id == x)
    · exact hst
    case some n =>
      cases hcond : n.semantic_type == "DATE" && !(st.2.any (fun p => p.1 == n.id))
      · simpa [hcond] using hst
      · simp only [hcond, if_true]
        intro f hfmem
        simp only [List.mem_append, List.mem_cons, List.not_mem_nil,
          or_false] at hfmem
        rcases hfmem with hfmem | hfmem
        · exact hst f hfmem
        · subst hfmem
          have hn : n.id = x := by
            have := List.find?_some hf
            simpa using this
          rw [hn]
          exact hds x (List.mem_cons_self x rest)

/-- Kept filters of the supported-filter fold lie within `sup`. -/
theorem filterStep_foldl_sup (sup : List Uuid)
    (cs : List (FullSemanticNode × String))
    (st : List (FullSemanticNode × String) × List (Uuid × String))
    (hst : ∀ f ∈ st.1, f.1.id ∈ sup) :
    ∀ f ∈ (cs.foldl (filterStep sup) st).1, f.1.id ∈ sup := by
  induction cs generalizing st with
  | nil => exact hst
  | cons c rest ih =>
    simp only [List.foldl_cons]
    refine ih _ ?_
    unfold filterStep dedupPush
    cases hc : sup.contains c.1.id
    · simpa using hst
    · cases hk : st.2.contains (keyOf c)
      · simp only [hc, hk, Bool.false_eq_true, if_false, if_true]
        intro f hfmem
        simp only [List.mem_append, List.mem_cons, List.not_mem_nil,
          or_false] at hfmem
        rcases hfmem with hfmem | hfmem
        · exact hst f hfmem
        · subst hfmem
          exact contains_iff_mem.mp hc
      · simpa [hc, hk] using hst

/-- Membership in the supported-dimension id list coincides with a
`metric_dimension_rels` row. -/
theorem mem_supported_isRelated (db : MetaDb) (mid did : Uuid)
    (h : did ∈ supportedDimIds db mid) : isRelated db mid did = true := by
  unfold supportedDimIds at h
  rw [List.mem_dedup, List.mem_map] at h
  obtain ⟨r, hr, hrd⟩ := h
  rw [List.mem_filter] at hr
  unfold isRelated
  rw [List.any_eq_true]
  exact ⟨r, hr.1, by simp [hr.2, hrd]⟩

/-- Destructuring a successful inference run. -/
theorem infer_ok_elim {db : MetaDb} {cache : NodeCache} {q : String}
    {words : List String} {r : InferenceResult}
    (h : infer db cache q words = .ok r) :
    (∃ ms, (scanAll db cache words).target_metrics = r.metric :: ms) ∧
      r.filters = validateAndBind db cache (capturedDate q) r.metric
        (scanAll db cache words).raw_candidates := by
  unfold infer at h
  dsimp only at h
  cases hm : (scanAll db cache words).target_metrics with
  | nil => rw [hm] at h; exact absurd h (by simp)
  | cons metric rest =>
    rw [hm] at h
    simp only [Except.ok.injEq] at h
    cases h
    exact ⟨⟨rest, rfl⟩, rfl⟩

/-- Destructuring a `planned` outcome of `chat_query`. -/
theorem chat_planned_elim {db : MetaDb} {cache : NodeCache} {q sql agg : String}
    {m : FullSemanticNode} {fs : List (FullSemanticNode × String)}
    (h : chat_query db cache q = .planned sql agg m fs) :
    (chatScan db cache q).1 = [m] ∧
      fs = detectedFilters (chatScan db cache q).2 ∧
      agg = aggOf q m ∧
      sql = buildSql agg m fs ∧
      fs.find? (fun f => !(isRelated db m.id f.1.id)) = none := by
  unfold chat_query at h
  dsimp only at h
  cases hs : (chatScan db cache q).1 with
  | nil => rw [hs] at h; exact absurd h (by simp)
  | cons metric rest =>
    rw [hs] at h
    dsimp only at h
    cases hrest : rest.isEmpty
    · rw [hrest] at h
      exact absurd h (by simp)
    · rw [hrest] at h
      simp only [if_true] at h
      cases hf : (detectedFilters (chatScan db cache q).2).find?
          (fun f => !(isRelated db metric.id f.1.id)) with
      | some f =>
        rw [hf] at h
        exact absurd h (by simp)
      | none =>
        rw [hf] at h
        simp only [ChatResult.planned.injEq] at h
        obtain ⟨h1, h2, h3, h4⟩ := h
        subst h3
        subst h4
        rw [List.isEmpty_iff] at hrest
        subst hrest
        refine ⟨by simp [hs], rfl, h2.symm, ?_, hf⟩
        rw [← h2]
        exact h1.symm

theorem validateAndBind_sup (db : MetaDb) (cache : NodeCache)
    (captured : Option String) (metric : FullSemanticNode)
    (raw : List (FullSemanticNode × String)) :
    ∀ f ∈ validateAndBind db cache captured metric raw,
      f.1.id ∈ supportedDimIds db metric.id := by
  unfold validateAndBind
  cases captured with
  | none =>
    simpa using filterStep_foldl_sup _ raw ([], []) (by simp)
  | some d =>
    simp only
    exact timeStep_foldl_sup cache d _ _ (fun x hx => hx) _
      (filterStep_foldl_sup _ raw ([], []) (by simp))

theorem validateAndBind_nodup (db : MetaDb) (cache : NodeCache)
    (captured : Option String) (metric : FullSemanticNode)
    (raw : List (FullSemanticNode × String)) :
    ((validateAndBind db cache captured metric raw).map keyOf).Nodup := by
  unfold validateAndBind
  have h0 : GoodSt (raw.foldl (filterStep (supportedDimIds db metric.id)) ([], [])) :=
    goodSt_foldl (fun st c hst => goodSt_filterStep _ hst c) goodSt_nil raw
  cases captured with
  | none => exact h0.1
  | some d =>
    exact (goodSt_foldl (fun st x hst => goodSt_timeStep cache d hst x) h0 _).1

theorem validateAndBind_first_seen (db : MetaDb) (cache : NodeCache)
    (captured : Option String) (metric : FullSemanticNode)
    (raw : List (FullSemanticNode × String)) :
    ∃ extra, validateAndBind db cache captured metric raw =
      dedupFirst []
        (raw.filter (fun c => (supportedDimIds db metric.id).contains c.1.id))
        ++ extra := by
  unfold validateAndBind
  have h0 := foldl_filterStep (supportedDimIds db metric.id) raw ([], [])
  rw [foldl_dedupPush] at h0
  cases captured with
  | none => exact ⟨[], by simp [h0]⟩
  | some d =>
    simp only [h0]
    obtain ⟨extra, he⟩ := timeStep_foldl_extends cache d
      (supportedDimIds db metric.id)
      (([] : List (FullSemanticNode × String)) ++ dedupFirst []
          (raw.filter (fun c => (supportedDimIds db metric.id).contains c.1.id)),
        ([] : List (Uuid × String)) ++ (dedupFirst []
          (raw.filter (fun c => (supportedDimIds db metric.id).contains c.1.id))).map keyOf)
    exact ⟨extra, by simpa using he⟩

/-- `detectedFilters` is exactly first-seen de-duplication by key. -/
theorem detectedFilters_eq (raw : List (FullSemanticNode × String)) :
    detectedFilters raw = dedupFirst [] raw := by
  unfold detectedFilters
  rw [foldl_dedupPush]
  simp

theorem detectedFilters_nodup (raw : List (FullSemanticNode × String)) :
    ((detectedFilters raw).map keyOf).Nodup := by
  unfold detectedFilters
  exact (goodSt_foldl (fun st c hst => goodSt_dedupPush hst c) goodSt_nil raw).1

/-! ## Concrete fixtures (the spec's end-to-end scenario) -/

/-- Metric `收益额`: SUM over column `amount` of table `t_rev`. -/
def exMetric : FullSemanticNode :=
  ⟨1, "revenue", "收益额", "METRIC", "", "src1", "t_rev", "amount", [], [], "SUM"⟩

/-- Dimension `结算平台` over column `platform_code`. -/
def exPlat : FullSemanticNode :=
  ⟨2, "platform", "结算平台", "DIMENSION", "", "src1", "t_rev",
    "platform_code", [], [], "NONE"⟩

/-- Dimension `业务日期` (`DATE`-typed) over column `biz_date`. -/
def exDate : FullSemanticNode :=
  ⟨3, "biz_date_key", "业务日期", "DIMENSION", "DATE", "src1", "t_rev",
    "biz_date", [], [], "NONE"⟩

/-- A-Box row `A公司 → A01` for the platform dimension; both dimensions are
related to the metric. -/
def exDb : MetaDb := ⟨[⟨2, "A公司", "A01"⟩], [(1, 2), (1, 3)]⟩

def exCache : NodeCache := [exMetric, exPlat, exDate]

/-! ## Claims -/

/-- C1: for every query for which inference succeeds (`infer` returns `Ok`,
or `chat_query` reaches SQL assembly), every filter dimension's id in the
resulting filter list is related to the anchor metric by a
`metric_dimension_rels` row (i.e. lies in the metric's
`supported_dim_ids`); the filters added by the type-directed time binding
included. -/
theorem c1_filters_supported (db : MetaDb) (cache : NodeCache) (q : String) :
    (∀ words r, infer db cache q words = .ok r →
      ∀ f ∈ r.filters, isRelated db r.metric.id f.1.id = true) ∧
    (∀ sql agg m fs, chat_query db cache q = .planned sql agg m fs →
      ∀ f ∈ fs, isRelated db m.id f.1.id = true) := by
  constructor
  · intro words r h f hf
    obtain ⟨_, hfil⟩ := infer_ok_elim h
    rw [hfil] at hf
    exact mem_supported_isRelated db _ _ (validateAndBind_sup _ _ _ _ _ f hf)
  · intro sql agg m fs h f hf
    obtain ⟨_, _, _, _, hnone⟩ := chat_planned_elim h
    have := List.find?_eq_none.mp hnone f hf
    simpa using this

theorem c1_witness :
    infer exDb exCache "收益额 A公司" ["收益额", "A公司"] =
        .ok ⟨exMetric, [(exPlat, "A01")]⟩ ∧
      isRelated exDb exMetric.id exPlat.id = true :=
  ⟨rfl,
    (c1_filters_supported exDb exCache "收益额 A公司").1 ["收益额", "A公司"]
      ⟨exMetric, [(exPlat, "A01")]⟩ rfl (exPlat, "A01") (by simp)⟩

/-- C2: for every query string and every index state, if no node with role
`METRIC` matches (`infer`: label/alias equality against a lowercased token;
`chat_query`: label/alias substring containment in the trimmed query),
inference fails with `NoMetricAnchor` and `chat_query` returns the
`fail` envelope — an outcome that carries no SQL, so none is generated or
executed. -/
theorem c2_no_metric_anchor (db : MetaDb) (cache : NodeCache) (q : String)
    (words : List String) :
    ((∀ w ∈ words, ∀ n ∈ cache, n.node_role = "METRIC" →
        labelMatches (lowerStr w) n = false) →
      infer db cache q words = .error .noMetricAnchor) ∧
    ((∀ n ∈ cache, metricMatches q n = false) →
      chat_query db cache q = .fail) := by
  constructor
  · intro h
    have hm : (scanAll db cache words).target_metrics = [] := by
      unfold scanAll
      rw [scanFrom_target_metrics_nil]
      intro w hw
      rw [metricsMatched, List.filter_eq_nil_iff]
      intro n hn hcond
      rw [Bool.and_eq_true] at hcond
      have hrole : n.node_role = "METRIC" := by simpa using hcond.2
      have hfalse := h w hw n hn hrole
      rw [hfalse] at hcond
      exact Bool.noConfusion hcond.1
    unfold infer
    dsimp only
    rw [hm]
  · intro h
    have hm : (chatScan db cache q).1 = [] := by
      rw [chatScan_fst, List.filter_eq_nil_iff]
      intro n hn
      simp [h n hn]
    unfold chat_query
    dsimp only
    rw [hm]

theorem c2_witness :
    infer exDb [exPlat] "A公司" ["A公司"] = .error .noMetricAnchor ∧
      chat_query exDb [exPlat] "A公司" = .fail :=
  ⟨(c2_no_metric_anchor exDb [exPlat] "A公司" ["A公司"]).1 (by decide),
    (c2_no_metric_anchor exDb [exPlat] "A公司" ["A公司"]).2 (by decide)⟩

/-- The GROUP BY suffix of `buildSql`, as a propositional split. -/
theorem buildSql_split (agg : String) (m : FullSemanticNode)
    (fs : List (FullSemanticNode × String)) :
    buildSql agg m fs = baseSql agg m fs ++
      (if agg = "NONE" ∨ fs = [] then ""
       else " GROUP BY " ++
         String.intercalate ", " (fs.map (fun f => f.1.sql_expression))) := by
  unfold buildSql
  by_cases h1 : agg = "NONE"
  · simp [h1]
  · by_cases h2 : fs = []
    · subst h2
      simp [h1]
    · have hne : (fs.map (fun f => f.1.sql_expression)).isEmpty = false := by
        simp [List.isEmpty_iff, h2]
      simp [h1, h2, hne, bne_iff_ne, String.append_assoc]

/-- C3: for every generated SQL string, a GROUP BY clause is present iff
the selected aggregation is not `NONE` and at least one filter dimension
is bound; when present its operands are exactly the bound filters'
`sql_expression`s, in bound order — the same list, in the same order, that
prefixes the SELECT clause inside `baseSql`. -/
theorem c3_group_by_iff (db : MetaDb) (cache : NodeCache) (q : String) :
    ∀ sql agg m fs, chat_query db cache q = .planned sql agg m fs →
      sql = baseSql agg m fs ++
        (if agg = "NONE" ∨ fs = [] then ""
         else " GROUP BY " ++
           String.intercalate ", " (fs.map (fun f => f.1.sql_expression))) := by
  intro sql agg m fs h
  obtain ⟨_, _, _, hsql, _⟩ := chat_planned_elim h
  rw [hsql, buildSql_split]

theorem c3_witness :
    buildSql "AVG" exMetric [(exPlat, "A01")] =
      baseSql "AVG" exMetric [(exPlat, "A01")] ++
        (if ("AVG" : String) = "NONE" ∨
            ([(exPlat, "A01")] : List (FullSemanticNode × String)) = [] then ""
         else " GROUP BY " ++ String.intercalate ", "
           ([(exPlat, "A01")].map (fun f => f.1.sql_expression))) :=
  c3_group_by_iff exDb exCache "A公司 平均收益额" _ "AVG" exMetric
    [(exPlat, "A01")] rfl

/-- Dimension `渠道` carrying its own default constraint
`status = 'ACTIVE'`, used to separate the code's WHERE clause from the
claimed one. -/
def c4Dim : FullSemanticNode :=
  ⟨4, "channel", "渠道", "DIMENSION", "", "src1", "t_rev", "channel_code",
    [⟨"status", "=", "ACTIVE"⟩], [], "NONE"⟩

def c4Db : MetaDb := ⟨[⟨4, "B渠道", "B01"⟩], [(1, 4)]⟩

def c4Cache : NodeCache := [exMetric, c4Dim]

/-- C4 counterexample: on a plan whose bound dimension carries a default
constraint, the generated SQL differs from the claimed one — `chat_query`
never appends the filter dimensions' `default_constraints` to the WHERE
clause (only the metric's). -/
theorem c4_counterexample :
    chat_query c4Db c4Cache "B渠道 收益额" =
        .planned (buildSql "SUM" exMetric [(c4Dim, "B01")]) "SUM" exMetric
          [(c4Dim, "B01")] ∧
      buildSql "SUM" exMetric [(c4Dim, "B01")] ≠
        claimBuildSql "SUM" exMetric [(c4Dim, "B01")] :=
  ⟨rfl, by decide⟩

/-- C4 (amended): the WHERE clause is the `" AND "`-conjunction of the
sentinel `1=1`, one equality per bound filter in bound order, and one
predicate per constraint in the metric's `default_constraints` — the bound
filter dimensions' own `default_constraints` are not appended. -/
theorem c4_where_clause_amended (db : MetaDb) (cache : NodeCache) (q : String) :
    ∀ sql agg m fs, chat_query db cache q = .planned sql agg m fs →
      sql = "SELECT "
          ++ String.intercalate ", "
              (fs.map (fun f => dimSelectItem f.1) ++ [metricSqlItem agg m])
          ++ " FROM " ++ m.target_table
          ++ " WHERE " ++ String.intercalate " AND "
              (["1=1"]
                ++ fs.map (fun f => f.1.sql_expression ++ " = '" ++ f.2 ++ "'")
                ++ m.default_constraints.map constraintPred)
          ++ (if agg = "NONE" ∨ fs = [] then ""
              else " GROUP BY " ++
                String.intercalate ", " (fs.map (fun f => f.1.sql_expression))) := by
  intro sql agg m fs h
  obtain ⟨_, _, _, hsql, _⟩ := chat_planned_elim h
  rw [hsql, buildSql_split]
  rfl

theorem c4_witness :
    buildSql "SUM" exMetric [(c4Dim, "B01")] =
      "SELECT "
        ++ String.intercalate ", "
            ([(c4Dim, "B01")].map (fun f => dimSelectItem f.1)
              ++ [metricSqlItem "SUM" exMetric])
        ++ " FROM " ++ exMetric.target_table
        ++ " WHERE " ++ String.intercalate " AND "
            (["1=1"]
              ++ [(c4Dim, "B01")].map
                  (fun f => f.1.sql_expression ++ " = '" ++ f.2 ++ "'")
              ++ exMetric.default_constraints.map constraintPred)
        ++ (if ("SUM" : String) = "NONE" ∨
              ([(c4Dim, "B01")] : List (FullSemanticNode × String)) = [] then ""
            else " GROUP BY " ++ String.intercalate ", "
              ([(c4Dim, "B01")].map (fun f => f.1.sql_expression))) :=
  c4_where_clause_amended c4Db c4Cache "B渠道 收益额" _ "SUM" exMetric
    [(c4Dim, "B01")] rfl

/-- C5: aggregation selection — if the user query contains the substring
`平均`, the aggregation is `AVG`; otherwise if the metric's `default_agg`
is `NONE`, no aggregation (`agg = "NONE"`, under which the metric
projection stays unwrapped); otherwise the metric's `default_agg`. -/
theorem c5_aggregation_selection (db : MetaDb) (cache : NodeCache)
    (q : String) :
    ∀ sql agg m fs, chat_query db cache q = .planned sql agg m fs →
      agg = (if strContains q "平均" = true then "AVG"
             else if m.default_agg = "NONE" then "NONE"
             else m.default_agg) := by
  intro sql agg m fs h
  obtain ⟨_, _, hagg, _, _⟩ := chat_planned_elim h
  rw [hagg]
  unfold aggOf
  by_cases h1 : strContains q "平均" = true
  · simp [h1]
  · by_cases h2 : m.default_agg = "NONE" <;> simp [h1, h2]

theorem c5_witness :
    ("AVG" : String) =
      (if strContains "A公司 平均收益额" "平均" = true then "AVG"
       else if exMetric.default_agg = "NONE" then "NONE"
       else exMetric.default_agg) :=
  c5_aggregation_selection exDb exCache "A公司 平均收益额" _ "AVG" exMetric
    [(exPlat, "A01")] rfl

/-- C6: for every successful plan, no two filters share the key
`(dim.id, value)`, and the kept candidates are the surviving ones in
first-seen order (for `infer`, the T-Box survivors de-duplicated first,
then the time-binding appendix; for `chat_query`, exactly the first-seen
de-duplication of the raw filters). -/
theorem c6_filters_distinct_first_seen (db : MetaDb) (cache : NodeCache)
    (q : String) :
    (∀ words r, infer db cache q words = .ok r →
      ((r.filters.map keyOf).Nodup ∧
        ∃ extra, r.filters =
          dedupFirst [] ((scanAll db cache words).raw_candidates.filter
            (fun c => (supportedDimIds db r.metric.id).contains c.1.id))
          ++ extra)) ∧
    (∀ sql agg m fs, chat_query db cache q = .planned sql agg m fs →
      ((fs.map keyOf).Nodup ∧ fs = dedupFirst [] (chatScan db cache q).2)) := by
  constructor
  · intro words r h
    obtain ⟨_, hfil⟩ := infer_ok_elim h
    rw [hfil]
    exact ⟨validateAndBind_nodup _ _ _ _ _, validateAndBind_first_seen _ _ _ _ _⟩
  · intro sql agg m fs h
    obtain ⟨_, hfs, _, _, _⟩ := chat_planned_elim h
    rw [hfs]
    exact ⟨detectedFilters_nodup _, detectedFilters_eq _⟩

theorem c6_witness :
    (([(exPlat, "A01")].map keyOf).Nodup ∧
      ∃ extra, [(exPlat, "A01")] =
        dedupFirst [] ((scanAll exDb exCache ["收益额", "A公司"]).raw_candidates.filter
          (fun c => (supportedDimIds exDb exMetric.id).contains c.1.id))
        ++ extra) :=
  (c6_filters_distinct_first_seen exDb exCache "收益额 A公司").1
    ["收益额", "A公司"] ⟨exMetric, [(exPlat, "A01")]⟩ rfl

/-- The capture condition of `nextWordCapture`, propositionally. -/
theorem nextWordCapture_eq (words : List String) (idx : Nat) :
    nextWordCapture words idx =
      match words[idx + 1]? with
      | some nw =>
        if (strTrim nw).utf8ByteSize > 1 ∧ strTrim nw ≠ "是" ∧ strTrim nw ≠ "为"
        then some (strTrim nw) else none
      | none => none := by
  unfold nextWordCapture
  cases words[idx + 1]? with
  | none => rfl
  | some nw =>
    dsimp only
    by_cases h1 : (strTrim nw).utf8ByteSize > 1
    · by_cases h2 : strTrim nw = "是"
      · simp [h1, h2]
      · by_cases h3 : strTrim nw = "为" <;> simp [h1, h2, h3, bne_iff_ne]
    · simp [h1]

/-- A metric without a match anywhere, so that only the context capture
contributes: empty meta-DB. -/
def c7Db : MetaDb := ⟨[], []⟩

/-- C7 counterexample: with the token `结算平台` matching a DIMENSION node
and followed by the single-character token `好` (UTF-8 length 3 bytes, 1
character), the scan emits the candidate binding even though the next
token has fewer than 2 characters — the code compares `str::len`, i.e.
bytes, not characters. -/
theorem c7_counterexample :
    (scanAll c7Db [exPlat] ["结算平台", "好"]).raw_candidates =
        [(exPlat, "好")] ∧
      ("好" : String).length = 1 :=
  ⟨rfl, rfl⟩

/-- C7 (amended): when a token matches a DIMENSION node, the candidate
binding is emitted iff a next token exists whose trimmed form has UTF-8
byte length ≥ 2 and is neither `是` nor `为`; the captured value is the
trimmed next token. -/
theorem c7_value_capture_amended (words : List String) (idx : Nat)
    (w : String) (acc : ScanAcc) (n : FullSemanticNode)
    (hrole : n.node_role = "DIMENSION")
    (hmatch : n.label = w ∨ w ∈ n.alias_names) :
    (scanNode words idx w acc n).raw_candidates =
      acc.raw_candidates ++
        (match words[idx + 1]? with
         | some nw =>
           if (strTrim nw).utf8ByteSize > 1 ∧ strTrim nw ≠ "是" ∧ strTrim nw ≠ "为"
           then [(n, strTrim nw)] else []
         | none => []) := by
  have hlm : labelMatches w n = true := by
    unfold labelMatches
    rcases hmatch with h | h
    · simp [h]
    · simp [h]
  have hm : (("DIMENSION" : String) == "METRIC") = false := by decide
  have hd : (("DIMENSION" : String) == "DIMENSION") = true := by decide
  unfold scanNode
  rw [nextWordCapture_eq]
  simp only [hlm, hrole, hm, hd, Bool.false_eq_true, if_false, if_true]
  cases hnext : words[idx + 1]? with
  | none => simp
  | some nw =>
    by_cases hc : (strTrim nw).utf8ByteSize > 1 ∧ strTrim nw ≠ "是" ∧
        strTrim nw ≠ "为"
    · simp [hc]
    · simp [hc]

theorem c7_witness :
    (scanNode ["结算平台", "公司A"] 0 "结算平台" ⟨[], []⟩ exPlat).raw_candidates =
      [] ++
        (match (["结算平台", "公司A"] : List String)[0 + 1]? with
         | some nw =>
           if (strTrim nw).utf8ByteSize > 1 ∧ strTrim nw ≠ "是" ∧ strTrim nw ≠ "为"
           then [(exPlat, strTrim nw)] else []
         | none => []) :=
  c7_value_capture_amended ["结算平台", "公司A"] 0 "结算平台" ⟨[], []⟩ exPlat
    rfl (Or.inl rfl)

/-- C8: the first call of `get_or_create_pool` for a source id creates a
pool with `max_connections = 5` and caches it keyed by `source.id`; a
later call with the same id returns the cached handle; on failure
(connect error or unsupported `db_type`) the typed error is returned with
the pool map unchanged, so the next call retries creation. -/
theorem c8_pool_cache (env : ConnectEnv) (pm : PoolManager) (s : DataSource) :
    (∀ p, pm.pools.lookup s.id = some p →
      get_or_create_pool env pm s = (.ok p, pm)) ∧
    (pm.pools.lookup s.id = none →
      (lowerStr s.db_type = "postgres" ∨ lowerStr s.db_type = "postgresql") →
      env.pgOk s.connection_url = true →
      get_or_create_pool env pm s =
          (.ok (.postgres ⟨5, s.connection_url⟩),
            ⟨(s.id, .postgres ⟨5, s.connection_url⟩) :: pm.pools⟩) ∧
        (PoolManager.mk ((s.id, DynamicPool.postgres ⟨5, s.connection_url⟩)
            :: pm.pools)).pools.lookup s.id =
          some (.postgres ⟨5, s.connection_url⟩)) ∧
    (pm.pools.lookup s.id = none → lowerStr s.db_type = "mysql" →
      env.myOk s.connection_url = true →
      get_or_create_pool env pm s =
        (.ok (.mysql ⟨5, s.connection_url⟩),
          ⟨(s.id, .mysql ⟨5, s.connection_url⟩) :: pm.pools⟩)) ∧
    (pm.pools.lookup s.id = none →
      (lowerStr s.db_type = "postgres" ∨ lowerStr s.db_type = "postgresql") →
      env.pgOk s.connection_url = false →
      get_or_create_pool env pm s = (.error .connectFailed, pm)) ∧
    (pm.pools.lookup s.id = none → lowerStr s.db_type = "mysql" →
      env.myOk s.connection_url = false →
      get_or_create_pool env pm s = (.error .connectFailed, pm)) ∧
    (pm.pools.lookup s.id = none →
      lowerStr s.db_type ≠ "postgres" → lowerStr s.db_type ≠ "postgresql" →
      lowerStr s.db_type ≠ "mysql" →
      get_or_create_pool env pm s = (.error .unsupportedDbType, pm)) := by
  refine ⟨?_, ?_, ?_, ?_, ?_, ?_⟩
  · intro p hp
    unfold get_or_create_pool
    rw [hp]
  · intro hnone hdt hok
    have hcond : (lowerStr s.db_type == "postgres"
        || lowerStr s.db_type == "postgresql") = true := by
      rcases hdt with h | h <;> simp [h]
    constructor
    · unfold get_or_create_pool
      rw [hnone]
      dsimp only
      rw [hcond]
      unfold pgConnect
      rw [hok]
      rfl
    · simp [List.lookup]
  · intro hnone hdt hok
    have hpg : (lowerStr s.db_type == "postgres"
        || lowerStr s.db_type == "postgresql") = false := by
      simp [hdt]
    unfold get_or_create_pool
    rw [hnone]
    dsimp only
    rw [hpg, hdt]
    unfold myConnect
    rw [hok]
    rfl
  · intro hnone hdt hok
    have hcond : (lowerStr s.db_type == "postgres"
        || lowerStr s.db_type == "postgresql") = true := by
      rcases hdt with h | h <;> simp [h]
    unfold get_or_create_pool
    rw [hnone]
    dsimp only
    rw [hcond]
    unfold pgConnect
    rw [hok]
    rfl
  · intro hnone hdt hok
    have hpg : (lowerStr s.db_type == "postgres"
        || lowerStr s.db_type == "postgresql") = false := by
      simp [hdt]
    unfold get_or_create_pool
    rw [hnone]
    dsimp only
    rw [hpg, hdt]
    unfold myConnect
    rw [hok]
    rfl
  · intro hnone h1 h2 h3
    have hpg : (lowerStr s.db_type == "postgres"
        || lowerStr s.db_type == "postgresql") = false := by
      simp [h1, h2]
    have hmy : (lowerStr s.db_type == "mysql") = false := by
      simp [h3]
    unfold get_or_create_pool
    rw [hnone]
    dsimp only
    rw [hpg, hmy]
    rfl

theorem c8_witness :
    get_or_create_pool ⟨fun _ => true, fun _ => true⟩ ⟨[]⟩
        ⟨"s1", "postgres", "url1", none⟩ =
      (.ok (.postgres ⟨5, "url1"⟩), ⟨[("s1", .postgres ⟨5, "url1"⟩)]⟩) ∧
    get_or_create_pool ⟨fun _ => true, fun _ => true⟩
        ⟨[("s1", .postgres ⟨5, "url1"⟩)]⟩ ⟨"s1", "postgres", "url1", none⟩ =
      (.ok (.postgres ⟨5, "url1"⟩), ⟨[("s1", .postgres ⟨5, "url1"⟩)]⟩) :=
  ⟨((c8_pool_cache ⟨fun _ => true, fun _ => true⟩ ⟨[]⟩
      ⟨"s1", "postgres", "url1", none⟩).2.1 rfl (Or.inl (by decide)) rfl).1,
    (c8_pool_cache ⟨fun _ => true, fun _ => true⟩
      ⟨[("s1", .postgres ⟨5, "url1"⟩)]⟩ ⟨"s1", "postgres", "url1", none⟩).1
      (.postgres ⟨5, "url1"⟩) rfl⟩

/-- C9 counterexample: the `utils.rs` Postgres converter turns a `NUMERIC`
cell into an `f64`-valued JSON number (`Decimal::to_f64`), not a JSON
string preserving the decimal's digits. -/
theorem c9_counterexample :
    Utils.pg_row_to_json [⟨"amt", "NUMERIC", .decimal "123.45"⟩] =
        [("amt", Json.numF)] ∧
      Json.numF ≠ Json.str "123.45" :=
  ⟨rfl, by decide⟩

/-- C9 (amended): the `db_internal.rs` converters (the ones `chat_query`
uses) map every decimal-typed column (`NUMERIC` for Postgres,
`DECIMAL`/`NEWDECIMAL` for MySQL) to a JSON string carrying the decimal's
exact digits, and SQL NULL to JSON null; the `utils.rs` Postgres variant
instead maps a `NUMERIC` cell to an f64 JSON number. -/
theorem c9_decimal_marshalling_amended :
    ∀ (row : List RowColumn) (col : RowColumn) (d : String), col ∈ row →
      (col.type_name = "NUMERIC" → col.cell = .decimal d →
        (col.name, Json.str d) ∈ DbInternal.pg_row_to_json row) ∧
      (col.type_name = "NUMERIC" → col.cell = .null →
        (col.name, Json.null) ∈ DbInternal.pg_row_to_json row) ∧
      ((col.type_name = "DECIMAL" ∨ col.type_name = "NEWDECIMAL") →
        col.cell = .decimal d →
        (col.name, Json.str d) ∈ DbInternal.mysql_row_to_json row) ∧
      ((col.type_name = "DECIMAL" ∨ col.type_name = "NEWDECIMAL") →
        col.cell = .null →
        (col.name, Json.null) ∈ DbInternal.mysql_row_to_json row) ∧
      (col.type_name = "NUMERIC" → col.cell = .decimal d →
        (col.name, Json.numF) ∈ Utils.pg_row_to_json row) := by
  intro row col d hmem
  refine ⟨?_, ?_, ?_, ?_, ?_⟩
  · intro hty hcell
    unfold DbInternal.pg_row_to_json
    rw [List.mem_map]
    exact ⟨col, hmem, by rw [hty, hcell]; rfl⟩
  · intro hty hcell
    unfold DbInternal.pg_row_to_json
    rw [List.mem_map]
    exact ⟨col, hmem, by rw [hty, hcell]; rfl⟩
  · intro hty hcell
    unfold DbInternal.mysql_row_to_json
    rw [List.mem_map]
    rcases hty with h | h
    · exact ⟨col, hmem, by rw [h, hcell]; rfl⟩
    · exact ⟨col, hmem, by rw [h, hcell]; rfl⟩
  · intro hty hcell
    unfold DbInternal.mysql_row_to_json
    rw [List.mem_map]
    rcases hty with h | h
    · exact ⟨col, hmem, by rw [h, hcell]; rfl⟩
    · exact ⟨col, hmem, by rw [h, hcell]; rfl⟩
  · intro hty hcell
    unfold Utils.pg_row_to_json
    rw [List.mem_map]
    exact ⟨col, hmem, by rw [hty, hcell]; rfl⟩

theorem c9_witness :
    ("amt", Json.str "123.45") ∈
        DbInternal.pg_row_to_json [⟨"amt", "NUMERIC", SqlCell.decimal "123.45"⟩] ∧
      ("amt", Json.numF) ∈
        Utils.pg_row_to_json [⟨"amt", "NUMERIC", SqlCell.decimal "123.45"⟩] :=
  ⟨(c9_decimal_marshalling_amended
      [⟨"amt", "NUMERIC", SqlCell.decimal "123.45"⟩]
      ⟨"amt", "NUMERIC", SqlCell.decimal "123.45"⟩ "123.45" (by simp)).1 rfl rfl,
    (c9_decimal_marshalling_amended
      [⟨"amt", "NUMERIC", SqlCell.decimal "123.45"⟩]
      ⟨"amt", "NUMERIC", SqlCell.decimal "123.45"⟩ "123.45"
      (by simp)).2.2.2.2 rfl rfl⟩

theorem charOfNat_toNat (n : Nat) (h : Nat.isValidChar n) :
    (Char.ofNat n).toNat = n := by
  unfold Char.ofNat
  rw [dif_pos h]
  rfl

theorem lowerChar_idem (c : Char) : lowerChar (lowerChar c) = lowerChar c := by
  by_cases h : 65 ≤ c.toNat ∧ c.toNat ≤ 90
  · obtain ⟨h1, h2⟩ := h
    have hval : Nat.isValidChar (c.toNat + 32) := Or.inl (by omega)
    have htn := charOfNat_toNat _ hval
    have hc : lowerChar c = Char.ofNat (c.toNat + 32) := by
      unfold lowerChar
      rw [if_pos ⟨h1, h2⟩]
    rw [hc]
    unfold lowerChar
    rw [if_neg (by rw [htn]; omega)]
  · have hnc : lowerChar c = c := by
      unfold lowerChar
      rw [if_neg h]
    rw [hnc]
    exact hnc

theorem lowerStr_idem (s : String) : lowerStr (lowerStr s) = lowerStr s := by
  unfold lowerStr
  refine congrArg String.mk ?_
  show (s.data.map lowerChar).map lowerChar = s.data.map lowerChar
  rw [List.map_map]
  exact List.map_congr_left (fun c _ => lowerChar_idem c)

/-- C10: semantic-index lookup is case-insensitive — for every mapping
list and every query string, the engine built by `FstEngine.build`
returns the same match for a query and for its lowercased form, because
every label/alias key is lowercased at build time and the query is
lowercased at lookup time. -/
theorem c10_case_insensitive_lookup (mappings : List SemanticMapping)
    (q : String) :
    (FstEngine.build mappings).find_match q =
      (FstEngine.build mappings).find_match (lowerStr q) := by
  unfold FstEngine.find_match
  rw [lowerStr_idem]

end SSE
